import Mathlib

/-!
# Verification of the block-structured assembly and solve pipeline

A shallow embedding of the Python layer in `src/python/dolfinx/fem/petsc.py`
(and the error handling of `src/python/demo/demo_navier-stokes.py`).

Pure data (function spaces, forms, boundary conditions) is embedded as Lean
structures.  The stateful PETSc calls (assembly kernels, ghost updates,
flushes, solver invocations, destruction) are opaque external collaborators,
so each Python function is embedded as a function that returns the ordered
list of external calls it performs (its trace), together with an explicit
error value for the paths that raise.
-/

namespace DolfinxPetsc

/-- Ownership/ghost partition exposed by a dofmap's index map. -/
structure IndexMapInfo where
  sizeLocal : Nat
  numGhosts : Nat
deriving DecidableEq, Repr

/-- A function space.  `objId` is the Python object identity (used for the
`is` comparison and for identity-based set deduplication); `subIds` are the
object identities of spaces contained as subspaces (`V.contains(W)` holds
when `W` is `V` itself or one of its subspaces).  The dofmap data
(`sizeLocal`, `numGhosts`, `bs`) mirrors
`V.dofmaps(0).index_map.size_local`, `num_ghosts` and
`V.dofmaps(0).index_map_bs`. -/
structure FunctionSpace where
  objId : Nat
  subIds : List Nat
  sizeLocal : Nat
  numGhosts : Nat
  bs : Nat
deriving DecidableEq, Repr

/-- `V.contains(W)`: `W` is `V` itself or a subspace of `V`. -/
def FunctionSpace.contains (V W : FunctionSpace) : Bool :=
  V.objId == W.objId || W.objId ∈ V.subIds

/-- A compiled bilinear form: `function_spaces = [test, trial]`. -/
structure BilinearForm where
  testSpace : FunctionSpace
  trialSpace : FunctionSpace
deriving DecidableEq, Repr

/-- A compiled linear form: `function_spaces = [test]`. -/
structure LinearForm where
  testSpace : FunctionSpace
deriving DecidableEq, Repr

/-- A Dirichlet boundary condition; only the constrained function space is
relevant to the control flow embedded here. -/
structure DirichletBC where
  functionSpace : FunctionSpace
deriving DecidableEq, Repr

/-- PETSc insertion modes used in `ghostUpdate` calls. -/
inductive InsertMode
  | add
  | insert
deriving DecidableEq, Repr

/-- PETSc scatter directions used in `ghostUpdate` calls. -/
inductive ScatterMode
  | forward
  | reverse
deriving DecidableEq, Repr

/-- Errors raised by the embedded Python code.  `shapeError` is the
rectangularity `AssertionError` of `_extract_function_spaces` (the spec's
`ShapeError`); `configurationError i j` is the `RuntimeError` raised for an
absent, boundary-constrained diagonal block (the spec's
`ConfigurationError`); `assertionErr` covers the remaining bare `assert`
statements; `notImplemented` is `NotImplementedError`; `attributeError` is
Python's `AttributeError`. -/
inductive AsmError
  | shapeError
  | configurationError (i j : Nat)
  | assertionErr
  | notImplemented
  | attributeError
deriving DecidableEq, Repr

/-- A reference to a (sub-)matrix: a whole PETSc matrix, a nested
sub-matrix obtained via `getNestSubMatrix(i, j)`, or a local sub-matrix
view obtained via `getLocalSubMatrix(is_rows[i], is_cols[j])`. -/
inductive MatRef
  | whole (id : Nat)
  | nestSub (id : Nat) (i j : Nat)
  | blockSub (id : Nat) (i j : Nat)
deriving DecidableEq, Repr

/-- A reference to vector storage: a whole PETSc vector, one block's purely
local segment obtained via `get_local_vectors`, or one block's owned
sub-range of the monolithic array (`b_array[offset : offset + size]`). -/
inductive VecRef
  | whole (id : Nat)
  | localSeg (id : Nat) (row : Nat)
  | ownedRange (id : Nat) (row : Nat)
deriving DecidableEq, Repr

/-- The external calls performed by the embedded functions, in program
order. -/
inductive Event
  | createMat (id : Nat)
  | createVec (id : Nat)
  | createSolver (id : Nat)
  | zeroMat (m : MatRef)
  | zeroVec (v : VecRef)
  | assembleVec (v : VecRef) (L : LinearForm)
  | applyLifting (v : VecRef) (a : List (Option BilinearForm))
      (bcs1 : List (List DirichletBC)) (x0 : Option Nat) (alpha : Int)
  | scatterLocal (id : Nat)
  | ghostUpdate (id : Nat) (addv : InsertMode) (mode : ScatterMode)
  | setBcOn (v : VecRef) (bc : DirichletBC) (x0 : Option Nat) (alpha : Int)
  | assembleMatAdd (m : MatRef) (a : BilinearForm)
  | matFlush (m : MatRef)
  | insertDiag (m : MatRef) (V : FunctionSpace) (bcs : List DirichletBC) (diagonal : Int)
  | matFinal (m : MatRef)
  | solverSolve (solverId bId xId : Nat)
  | scatterForward (uId : Nat)
  | destroy (id : Nat)
deriving DecidableEq, Repr

/-- `True` for the creation events (`createMat` / `createVec` /
`createSolver`). -/
def Event.isCreate : Event → Bool
  | .createMat _ => true
  | .createVec _ => true
  | .createSolver _ => true
  | _ => false

/- ## Demo error handling (`demo_navier-stokes.py`)

```
try:
    stokes_problem.solve()
except PETSc.Error as e:
    if e.ierr == 92:
        print(...); print(e); exit(0)
    else:
        raise e
```
-/

/-- Outcome of the demo's handler for a `PETSc.Error` raised by the Stokes
solve: either a graceful exit (with a printed report and an exit status) or
the error re-raised unchanged. -/
inductive SolveOutcome
  | gracefulExit (reported : Bool) (exitCode : Nat)
  | reraise (ierr : Nat)
deriving DecidableEq, Repr

/-- The demo's `except PETSc.Error` handler around `stokes_problem.solve()`:
error code 92 is reported and converted into `exit(0)`; every other code is
re-raised. -/
def handleStokesSolveError (ierr : Nat) : SolveOutcome :=
  if ierr = 92 then .gracefulExit true 0 else .reraise ierr

/- ## `create_vector` -/

/-- The argument of `create_vector`: a single form (an object exposing
`function_spaces`) or a sequence of forms (which raises `AttributeError`
on `L.function_spaces`, sending the call into the sequence branch). -/
inductive FormsArg
  | single (L : LinearForm)
  | seq (Ls : List LinearForm)
deriving DecidableEq, Repr

/-- The PETSc vector types consulted by `create_vector`:
`PETSc.Vec.Type.NEST`, `PETSc.Vec.Type.MPI`, or any other type string
(tagged by a number). -/
inductive VecKind
  | mpi
  | nest
  | other (tag : Nat)
deriving DecidableEq, Repr

/-- The layout of the vector returned by `create_vector`: a standard
ghosted vector sized from one dofmap, a nest of ghosted vectors, or a
monolithic block vector.  Each dofmap is recorded as
`(size_local, num_ghosts, index_map_bs)`. -/
inductive VecLayout
  | standard (sizeLocal numGhosts bs : Nat)
  | nestOf (maps : List (Nat × Nat × Nat))
  | blockOf (maps : List (Nat × Nat × Nat))
deriving DecidableEq, Repr

/-- The `(index_map, index_map_bs)` data of a form's test space, as read by
`create_vector` and the block/nest assemblers. -/
def formMap (f : LinearForm) : Nat × Nat × Nat :=
  (f.testSpace.sizeLocal, f.testSpace.numGhosts, f.testSpace.bs)

/-- `create_vector(L, kind)`: the single-form branch returns a standard
ghosted vector sized from the test-space dofmap without consulting `kind`;
the sequence branch dispatches on `kind` and raises `NotImplementedError`
for an unsupported vector type. -/
def create_vector (L : FormsArg) (kind : Option VecKind) : Except AsmError VecLayout :=
  match L with
  | .single Lf =>
      .ok (.standard Lf.testSpace.sizeLocal Lf.testSpace.numGhosts Lf.testSpace.bs)
  | .seq Ls =>
      let maps := Ls.map formMap
      match kind with
      | some .nest => .ok (.nestOf maps)
      | none => .ok (.blockOf maps)
      | some .mpi => .ok (.blockOf maps)
      | some (.other _) => .error .notImplemented

/- ## Block layout resolution (`_extract_function_spaces`, src lines 77-104) -/

/-- Identity-based set insertion: the Python `set` of function spaces
deduplicates by object identity. -/
def insertSpace (s : List FunctionSpace) (V : FunctionSpace) : List FunctionSpace :=
  if s.any (fun W => W.objId == V.objId) then s else s ++ [V]

/-- The set of test spaces appearing in block row `row`
(`rows[i].add(V[0])`). -/
def rowTestSpaces (row : List (Option BilinearForm)) : List FunctionSpace :=
  row.foldl (fun s c => match c with
    | some f => insertSpace s f.testSpace
    | none => s) []

/-- The set of trial spaces appearing in block column `j`
(`cols[j].add(V[1])`). -/
def colTrialSpaces (a : List (List (Option BilinearForm))) (j : Nat) : List FunctionSpace :=
  a.foldl (fun s row => match row.getD j none with
    | some f => insertSpace s f.trialSpace
    | none => s) []

/-- The rectangularity test of `_extract_function_spaces`:
`len({len(cols) for cols in a}) == 1`. -/
def rectangularGrid (a : List (List (Option BilinearForm))) : Bool :=
  match a with
  | [] => false
  | row :: rest => rest.all (fun r => r.length == row.length)

/-- `_extract_function_spaces(a)`: assert rectangularity (the spec's
`ShapeError`), collect the identity-deduplicated test spaces per row and
trial spaces per column, and assert each row/column determines exactly one
space. -/
def extractFunctionSpaces (a : List (List (Option BilinearForm))) :
    Except AsmError (List FunctionSpace × List FunctionSpace) :=
  if rectangularGrid a = false then .error .shapeError
  else if ((a.map rowTestSpaces).flatten).length = a.length ∧
      (((List.range (a.headD []).length).map (colTrialSpaces a)).flatten).length =
        (a.headD []).length then
    .ok ((a.map rowTestSpaces).flatten,
         ((List.range (a.headD []).length).map (colTrialSpaces a)).flatten)
  else .error .assertionErr

/- ## Helpers from `dolfinx.fem` modules that are not under src/ -/

/-- The first non-absent form in a row or column of the block grid. -/
def firstForm : List (Option BilinearForm) → Option BilinearForm
  | [] => none
  | some f :: _ => some f
  | none :: rest => firstForm rest

/-- Column `j` of the block grid, as the list of its cells. -/
def columnCells (a : List (List (Option BilinearForm))) (j : Nat) :
    List (Option BilinearForm) :=
  a.map (fun row => row.getD j none)

/-- Modelled from the spec: `extract_function_spaces(a, 1)` of
`dolfinx.fem.forms` (the module is not under src/).  Per spec section 4.1,
the Block Layout Resolver returns one trial space per block column,
extracted from the first non-absent form encountered in that column
(`None` when the whole column is absent). -/
def extractSpacesCols (a : List (List (Option BilinearForm))) :
    List (Option FunctionSpace) :=
  (List.range (a.headD []).length).map
    (fun j => (firstForm (columnCells a j)).map BilinearForm.trialSpace)

/-- Modelled from the spec: `bcs_by_block` of `dolfinx.fem.bcs` (the module
is not under src/).  Per spec section 4.4, each bilinear form in a row is
paired with the block whose trial space carries the prescribed values: the
boundary conditions are grouped per block space, a condition joining the
group of every block space that contains its function space, with an empty
group for an undetermined (`None`) space. -/
def bcsByBlock (spaces : List (Option FunctionSpace)) (bcs : List DirichletBC) :
    List (List DirichletBC) :=
  spaces.map (fun V => match V with
    | none => []
    | some V => bcs.filter (fun bc => V.contains bc.functionSpace))

/- ## `_assemble_vector_block_vec` (src lines 297-387) -/

/-- The per-block fill loop of `_assemble_vector_block_vec`: for each block
row, assemble the linear form into the block's purely local segment and
immediately apply lifting to that same segment, passing the whole
per-column grouping `bcs1` and the row of bilinear forms. -/
def blockFillPhase (bId : Nat) (bcs1 : List (List DirichletBC)) (x0 : Option Nat)
    (alpha : Int) :
    Nat → List LinearForm → List (List (Option BilinearForm)) → List Event
  | _, [], _ => []
  | _, _ :: _, [] => []
  | i, Li :: Ls, ai :: arest =>
      Event.assembleVec (.localSeg bId i) Li ::
      Event.applyLifting (.localSeg bId i) ai bcs1 x0 alpha ::
      blockFillPhase bId bcs1 x0 alpha (i + 1) Ls arest

/-- The final loop of `_assemble_vector_block_vec`: for each block row,
`bc.set` on the block's owned sub-range of the monolithic array, for each
boundary condition grouped to that row's test space. -/
def blockSetBcPhase (bId : Nat) (x0 : Option Nat) (alpha : Int) :
    Nat → List (List DirichletBC) → List Event
  | _, [] => []
  | i, bcsI :: rest =>
      bcsI.map (fun bc => Event.setBcOn (.ownedRange bId i) bc x0 alpha)
      ++ blockSetBcPhase bId x0 alpha (i + 1) rest

/-- `_assemble_vector_block_vec(b, L, a, bcs, x0, alpha)`: group the
boundary conditions by the column trial spaces (`bcs1`), fill and lift each
block's purely local segment, scatter the local segments back, perform the
single global reverse-add ghost update, then group the boundary conditions
by the row test spaces (`bcs0`) and overwrite the owned sub-ranges. -/
def assembleVectorBlockVec (bId : Nat) (L : List LinearForm)
    (a : List (List (Option BilinearForm))) (bcs : List DirichletBC)
    (x0 : Option Nat) (alpha : Int) : List Event :=
  let bcs1 := bcsByBlock (extractSpacesCols a) bcs
  let bcs0 := bcsByBlock (L.map (fun f => some f.testSpace)) bcs
  blockFillPhase bId bcs1 x0 alpha 0 L a
    ++ [Event.scatterLocal bId, Event.ghostUpdate bId .add .reverse]
    ++ blockSetBcPhase bId x0 alpha 0 bcs0

/- ## `assemble_matrix_mat` (src lines 425-447)

```
_cpp.fem.petsc.assemble_matrix(A, a._cpp_object, constants, coeffs, _bcs)
if a.function_spaces[0] is a.function_spaces[1]:
    A.assemblyBegin(FLUSH); A.assemblyEnd(FLUSH)
    _cpp.fem.petsc.insert_diagonal(A, a.function_spaces[0], _bcs, diagonal)
```
-/

/-- `assemble_matrix_mat(A, a, bcs, diagonal)`: additive accumulation of
the bilinear form, then — only when the test space and the trial space are
the identical object (`is`, i.e. equal `objId`) — a flush assembly followed
by insertion of `diagonal` at the boundary-condition-constrained
degrees of freedom. -/
def assembleMatrixMat (A : MatRef) (a : BilinearForm) (bcs : List DirichletBC)
    (diagonal : Int) : List Event :=
  Event.assembleMatAdd A a ::
    (if a.testSpace.objId = a.trialSpace.objId then
      [Event.matFlush A, Event.insertDiag A a.testSpace bcs diagonal]
    else [])

/- ## Absent-diagonal boundary-condition check (nest and block assembly) -/

/-- The check both `_assemble_matrix_nest_mat` and
`_assemble_matrix_block_mat` run at an absent diagonal cell `(i, i)`:
iterate the boundary conditions; for each, collect the row's non-absent
forms, assert the list is non-empty, and raise the `RuntimeError`
(`ConfigurationError`) when the first such form's test space
(`function_spaces[0]`) contains the condition's space. -/
def diagNoneCheck (i : Nat) (row : List (Option BilinearForm))
    (bcs : List DirichletBC) : Option AsmError :=
  bcs.findSome? (fun bc =>
    match row.filterMap id with
    | [] => some .assertionErr
    | f :: _ =>
        if f.testSpace.contains bc.functionSpace then
          some (.configurationError i i)
        else none)

/- ## `_assemble_matrix_nest_mat` (src lines 482-537) -/

/-- The cell loop of one row of `_assemble_matrix_nest_mat`: a present
block is assembled via `assemble_matrix_mat` into its nested sub-matrix; an
absent diagonal cell runs `diagNoneCheck`, stopping at its error. -/
def nestCells (AId i : Nat) (wholeRow : List (Option BilinearForm))
    (bcs : List DirichletBC) (d : Int) :
    Nat → List (Option BilinearForm) → List Event × Option AsmError
  | _, [] => ([], none)
  | j, some f :: rest =>
      (assembleMatrixMat (.nestSub AId i j) f bcs d ++
        (nestCells AId i wholeRow bcs d (j + 1) rest).1,
       (nestCells AId i wholeRow bcs d (j + 1) rest).2)
  | j, none :: rest =>
      if i = j then
        match diagNoneCheck i wholeRow bcs with
        | some e => ([], some e)
        | none => nestCells AId i wholeRow bcs d (j + 1) rest
      else nestCells AId i wholeRow bcs d (j + 1) rest

/-- The row loop of `_assemble_matrix_nest_mat`, stopping at the first
raised error. -/
def nestRows (AId : Nat) (bcs : List DirichletBC) (d : Int) :
    Nat → List (List (Option BilinearForm)) → List Event × Option AsmError
  | _, [] => ([], none)
  | i, row :: rest =>
      match nestCells AId i row bcs d 0 row with
      | (evs, some e) => (evs, some e)
      | (evs, none) =>
          (evs ++ (nestRows AId bcs d (i + 1) rest).1,
           (nestRows AId bcs d (i + 1) rest).2)

/-- `_assemble_matrix_nest_mat(A, a, bcs, diagonal)`. -/
def assembleMatrixNestMat (AId : Nat) (a : List (List (Option BilinearForm)))
    (bcs : List DirichletBC) (d : Int) : List Event × Option AsmError :=
  nestRows AId bcs d 0 a

/- ## `_assemble_matrix_block_mat` (src lines 555-629) -/

/-- The additive-fill cell loop of one row of `_assemble_matrix_block_mat`:
a present block is assembled additively into its local sub-matrix view; an
absent diagonal cell runs `diagNoneCheck`, stopping at its error. -/
def blockPhase1Cells (AId i : Nat) (wholeRow : List (Option BilinearForm))
    (bcs : List DirichletBC) :
    Nat → List (Option BilinearForm) → List Event × Option AsmError
  | _, [] => ([], none)
  | j, some f :: rest =>
      (Event.assembleMatAdd (.blockSub AId i j) f ::
        (blockPhase1Cells AId i wholeRow bcs (j + 1) rest).1,
       (blockPhase1Cells AId i wholeRow bcs (j + 1) rest).2)
  | j, none :: rest =>
      if i = j then
        match diagNoneCheck i wholeRow bcs with
        | some e => ([], some e)
        | none => blockPhase1Cells AId i wholeRow bcs (j + 1) rest
      else blockPhase1Cells AId i wholeRow bcs (j + 1) rest

/-- The additive-fill row loop of `_assemble_matrix_block_mat`. -/
def blockPhase1Rows (AId : Nat) (bcs : List DirichletBC) :
    Nat → List (List (Option BilinearForm)) → List Event × Option AsmError
  | _, [] => ([], none)
  | i, row :: rest =>
      match blockPhase1Cells AId i row bcs 0 row with
      | (evs, some e) => (evs, some e)
      | (evs, none) =>
          (evs ++ (blockPhase1Rows AId bcs (i + 1) rest).1,
           (blockPhase1Rows AId bcs (i + 1) rest).2)

/-- The diagonal-insertion cell loop of `_assemble_matrix_block_mat`: after
the flush, `insert_diagonal` runs on each present block whose test space is
(identically) its trial space. -/
def blockDiagCells (AId : Nat) (bcs : List DirichletBC) (d : Int) (i : Nat) :
    Nat → List (Option BilinearForm) → List Event
  | _, [] => []
  | j, none :: rest => blockDiagCells AId bcs d i (j + 1) rest
  | j, some f :: rest =>
      (if f.testSpace.objId = f.trialSpace.objId then
        [Event.insertDiag (.blockSub AId i j) f.testSpace bcs d]
      else []) ++ blockDiagCells AId bcs d i (j + 1) rest

/-- The diagonal-insertion row loop of `_assemble_matrix_block_mat`. -/
def blockDiagRows (AId : Nat) (bcs : List DirichletBC) (d : Int) :
    Nat → List (List (Option BilinearForm)) → List Event
  | _, [] => []
  | i, row :: rest =>
      blockDiagCells AId bcs d i 0 row ++ blockDiagRows AId bcs d (i + 1) rest

/-- `_assemble_matrix_block_mat(A, a, bcs, diagonal)`: pack constants and
coefficients (no external calls recorded), run the Block Layout Resolver
(`_extract_function_spaces`, which can raise), additively fill every
present block, flush once to switch from add to set, then insert the
diagonal on the square present blocks. -/
def assembleMatrixBlockMat (AId : Nat) (a : List (List (Option BilinearForm)))
    (bcs : List DirichletBC) (d : Int) : List Event × Option AsmError :=
  match extractFunctionSpaces a with
  | .error e => ([], some e)
  | .ok _ =>
      match blockPhase1Rows AId bcs 0 a with
      | (evs, some e) => (evs, some e)
      | (evs, none) =>
          (evs ++ Event.matFlush (.whole AId) :: blockDiagRows AId bcs d 0 a, none)

/-- `assemble_matrix_block(a, bcs, diagonal)`: create the blocked matrix
(id 0) first, then delegate to `_assemble_matrix_block_mat`. -/
def assembleMatrixBlock (a : List (List (Option BilinearForm)))
    (bcs : List DirichletBC) (d : Int) : List Event × Option AsmError :=
  let res := assembleMatrixBlockMat 0 a bcs d
  (Event.createMat 0 :: res.1, res.2)

/- ## `LinearProblem` (src lines 719-866) -/

/-- The state captured by `LinearProblem.__init__`: the compiled forms and
boundary conditions, and the identities of the objects created at
construction — matrix `self._A`, right-hand-side vector `self._b`,
solution-wrap vector `self._x`, solver `self._solver`, and the solution
function `self.u`. -/
structure LinearProblem where
  form_a : BilinearForm
  form_L : LinearForm
  probBcs : List DirichletBC
  matId : Nat
  vecId : Nat
  xId : Nat
  solverId : Nat
  uId : Nat
deriving DecidableEq, Repr

/-- `LinearProblem.__init__(a, L, bcs, ...)` on the success path: compile
the forms, create the matrix (id 0), the right-hand-side vector (id 1),
the solution-wrap vector (id 2) and the solver (id 3), and record them in
the instance.  The returned trace holds the creation events. -/
def LinearProblem.init (a : BilinearForm) (L : LinearForm)
    (bcs : List DirichletBC) : LinearProblem × List Event :=
  (⟨a, L, bcs, 0, 1, 2, 3, 4⟩,
   [Event.createMat 0, Event.createVec 1, Event.createVec 2, Event.createSolver 3])

/-- `LinearProblem.solve()`: zero the cached matrix, re-assemble the
bilinear form into it (`assemble_matrix_mat` with the stored bcs), final
assembly; zero the cached vector's local storage, re-assemble the linear
form, apply lifting with the stored bilinear form and bcs, reverse-add
ghost update, overwrite the constrained entries (`bc.set` per condition);
solve with the stored solver into the stored solution-wrap vector,
scatter-forward the solution function, and return it. -/
def LinearProblem.solve (p : LinearProblem) : Nat × List Event :=
  (p.uId,
   Event.zeroMat (.whole p.matId) ::
     assembleMatrixMat (.whole p.matId) p.form_a p.probBcs 1
   ++ [Event.matFinal (.whole p.matId),
       Event.zeroVec (.whole p.vecId),
       Event.assembleVec (.whole p.vecId) p.form_L,
       Event.applyLifting (.whole p.vecId) [some p.form_a] [p.probBcs] none 1,
       Event.ghostUpdate p.vecId .add .reverse]
   ++ p.probBcs.map (fun bc => Event.setBcOn (.whole p.vecId) bc none 1)
   ++ [Event.solverSolve p.solverId p.vecId p.xId,
       Event.scatterForward p.uId])

/- ## Event-kind predicates used by the ordering theorems -/

/-- The events that may appear in the pre-finalize phase of
`_assemble_vector_block_vec`: per-block fill, per-block lifting, and the
local-segment scatter. -/
def isLocalPhaseEvent : Event → Bool
  | .assembleVec _ _ => true
  | .applyLifting _ _ _ _ _ => true
  | .scatterLocal _ => true
  | _ => false

/-- The direct boundary-overwrite events. -/
def isSetBcEvent : Event → Bool
  | .setBcOn _ _ _ _ => true
  | _ => false

/-- The additive matrix-accumulation events. -/
def isMatAddEvent : Event → Bool
  | .assembleMatAdd _ _ => true
  | _ => false

/- ## Sample data used by witnesses and counterexamples -/

/-- Sample space `V` (objId 0). -/
def sampleV : FunctionSpace := ⟨0, [], 4, 1, 2⟩

/-- Sample space `W` (objId 1). -/
def sampleW : FunctionSpace := ⟨1, [], 3, 1, 1⟩

/-- Sample space `U` (objId 2). -/
def sampleU : FunctionSpace := ⟨2, [], 5, 2, 1⟩

/-- Sample space `T` (objId 3). -/
def sampleT : FunctionSpace := ⟨3, [], 6, 0, 1⟩

/-- A square bilinear form on `V` (test and trial are the same object). -/
def formVV : BilinearForm := ⟨sampleV, sampleV⟩

/-- A rectangular bilinear form, test `V`, trial `W`. -/
def formVW : BilinearForm := ⟨sampleV, sampleW⟩

/-- A rectangular bilinear form, test `T`, trial `U`. -/
def formTU : BilinearForm := ⟨sampleT, sampleU⟩

/-- A rectangular bilinear form, test `T`, trial `W`. -/
def formTW : BilinearForm := ⟨sampleT, sampleW⟩

/-- A linear form with test space `V`. -/
def linV : LinearForm := ⟨sampleV⟩

/-- A linear form with test space `T`. -/
def linT : LinearForm := ⟨sampleT⟩

/-- A boundary condition on `V`. -/
def bcV : DirichletBC := ⟨sampleV⟩

/-- A boundary condition on `U`. -/
def bcU : DirichletBC := ⟨sampleU⟩

/- ## `NonlinearProblem` -/

/-- The state captured by `NonlinearProblem.__init__`: the compiled
residual form `self._L`, the compiled Jacobian form `self._a`, and the
boundary conditions `self.bcs`.  No algebraic containers are owned. -/
structure NonlinearProblem where
  resForm : LinearForm
  jacForm : BilinearForm
  nlBcs : List DirichletBC
deriving DecidableEq, Repr

/-- `NonlinearProblem.form(x)`: the pre-evaluation hook.  Its only
operation is `x.ghostUpdate(addv=INSERT, mode=FORWARD)` — a forward
(owner-to-ghost) overwrite scatter on the iterate. -/
def NonlinearProblem.form (_p : NonlinearProblem) (xId : Nat) : List Event :=
  [Event.ghostUpdate xId .insert .forward]

/-- `NonlinearProblem.F(x, b)`: zero `b`'s local storage, assemble the
residual form into `b`, apply lifting with the Jacobian form and
`alpha = -1`, `x0 = [x]`, ghost-accumulate `b` (reverse add), then
`set_bc(b, bcs, x, -1.0)` (one `bc.set` per boundary condition). -/
def NonlinearProblem.F (p : NonlinearProblem) (xId bId : Nat) : List Event :=
  [Event.zeroVec (.whole bId),
   Event.assembleVec (.whole bId) p.resForm,
   Event.applyLifting (.whole bId) [some p.jacForm] [p.nlBcs] (some xId) (-1),
   Event.ghostUpdate bId .add .reverse]
  ++ p.nlBcs.map (fun bc => Event.setBcOn (.whole bId) bc (some xId) (-1))

/-- `NonlinearProblem.J(x, A)`: zero the matrix entries, assemble the
Jacobian with boundary handling, final assembly. -/
def NonlinearProblem.J (p : NonlinearProblem) (AId : Nat) : List Event :=
  Event.zeroMat (.whole AId) ::
    assembleMatrixMat (.whole AId) p.jacForm p.nlBcs 1
  ++ [Event.matFinal (.whole AId)]

/- ## `LinearProblem.__init__` / `__del__` resource lifecycle

`__init__` assigns, in order: `self._a` (compiled form), `self._A`
(matrix), `self._L` (compiled form), `self._b` (vector), `self.u`,
`self._x` (solution-wrap vector), `self.bcs`, `self._solver`, then applies
the solver options.  `__del__` runs

```
self._solver.destroy(); self._A.destroy(); self._b.destroy(); self._x.destroy()
```

with no guard: accessing an attribute never assigned (because the
constructor raised first) raises `AttributeError` and skips the remaining
destroys.
-/

/-- The four destroyable attributes of a (possibly partially constructed)
`LinearProblem`: `None` means the constructor raised before the attribute
was assigned. -/
structure LPAttrs where
  solverH : Option Nat
  matA : Option Nat
  vecB : Option Nat
  vecX : Option Nat
deriving DecidableEq, Repr

/-- Whether constructor step `k` completed, when the constructor raises at
step `failAt` (and completes normally when `failAt = none`). -/
def stepDone (failAt : Option Nat) (k : Nat) : Bool :=
  match failAt with
  | none => true
  | some f => decide (k < f)

/-- The attribute state left behind by `LinearProblem.__init__` when it
raises at step `failAt`.  Step numbering follows the source: 0 compile
`a`; 1 create `self._A`; 2 compile `L`; 3 create `self._b`; 4 resolve
`self.u`; 5 create `self._x`; 6 create `self._solver`; 7 apply
options.  The created objects are the matrix (id 0), the right-hand-side
vector (id 1), the solution-wrap vector (id 2) and the solver (id 3). -/
def initPartial (failAt : Option Nat) : LPAttrs :=
  { matA := if stepDone failAt 1 then some 0 else none
    vecB := if stepDone failAt 3 then some 1 else none
    vecX := if stepDone failAt 5 then some 2 else none
    solverH := if stepDone failAt 6 then some 3 else none }

/-- `LinearProblem.__del__` on a possibly partially constructed instance:
destroy `_solver`, `_A`, `_b`, `_x` in order; a missing attribute raises
`AttributeError` at its access, keeping the destroys already performed. -/
def delMethod (s : LPAttrs) : List Event × Option AsmError :=
  match s.solverH with
  | none => ([], some .attributeError)
  | some sid =>
    match s.matA with
    | none => ([Event.destroy sid], some .attributeError)
    | some aid =>
      match s.vecB with
      | none => ([Event.destroy sid, Event.destroy aid], some .attributeError)
      | some bid =>
        match s.vecX with
        | none =>
            ([Event.destroy sid, Event.destroy aid, Event.destroy bid],
             some .attributeError)
        | some xid =>
            ([Event.destroy sid, Event.destroy aid, Event.destroy bid,
              Event.destroy xid], none)

end DolfinxPetsc

namespace DolfinxPetsc

/- ## Theorems for C9 and C10 -/

/-- C9: the demo's Stokes solve error handling exits gracefully with a
printed report and success status exactly when the reported PETSc error
code is the known capability-unavailable code 92, and re-raises every
other code unchanged. -/
theorem C9_stokes_error_handling (ierr : Nat) :
    (handleStokesSolveError ierr = .gracefulExit true 0 ↔ ierr = 92) ∧
    (ierr ≠ 92 → handleStokesSolveError ierr = .reraise ierr) := by
  constructor
  · constructor
    · intro h
      by_contra hne
      simp [handleStokesSolveError, hne] at h
    · intro h
      simp [handleStokesSolveError, h]
  · intro h
    simp [handleStokesSolveError, h]

/-- Witness for C9 at the concrete codes 92 and 17. -/
theorem C9_stokes_error_handling_witness :
    handleStokesSolveError 92 = .gracefulExit true 0 ∧
    handleStokesSolveError 17 = .reraise 17 :=
  ⟨(C9_stokes_error_handling 92).1.2 rfl,
   (C9_stokes_error_handling 17).2 (by decide)⟩

/-- C10: for a single form, `create_vector` returns the standard ghosted
vector sized from the test-space dofmap regardless of `kind` (which is
silently ignored, even `kind = nest`), and `NotImplementedError` can only
arise for a sequence of forms with an unsupported kind. -/
theorem C10_create_vector_single_ignores_kind :
    (∀ (Lf : LinearForm) (kind : Option VecKind),
      create_vector (.single Lf) kind =
        .ok (.standard Lf.testSpace.sizeLocal Lf.testSpace.numGhosts Lf.testSpace.bs)) ∧
    (∀ (Lf : LinearForm) (k1 k2 : Option VecKind),
      create_vector (.single Lf) k1 = create_vector (.single Lf) k2) ∧
    (∀ (arg : FormsArg) (kind : Option VecKind),
      create_vector arg kind = .error .notImplemented →
        (∃ Ls, arg = .seq Ls) ∧ ∃ t, kind = some (.other t)) := by
  refine ⟨fun Lf kind => rfl, fun Lf k1 k2 => rfl, ?_⟩
  intro arg kind h
  cases arg with
  | single Lf => exact absurd h (by simp [create_vector])
  | seq Ls =>
      refine ⟨⟨Ls, rfl⟩, ?_⟩
      cases kind with
      | none => exact absurd h (by simp [create_vector])
      | some k =>
          cases k with
          | mpi => exact absurd h (by simp [create_vector])
          | nest => exact absurd h (by simp [create_vector])
          | other t => exact ⟨t, rfl⟩

/-- Witness for C10: a single form with `kind = nest` still yields the
standard ghosted vector, and a sequence with an unsupported kind does raise
`NotImplementedError` from the sequence branch. -/
theorem C10_create_vector_single_ignores_kind_witness :
    create_vector (.single linV) (some .nest) = .ok (.standard 4 1 2) ∧
    ((∃ Ls, FormsArg.seq [linV] = FormsArg.seq Ls) ∧
      ∃ t, (some (VecKind.other 7) : Option VecKind) = some (.other t)) :=
  ⟨C10_create_vector_single_ignores_kind.1 linV (some .nest),
   C10_create_vector_single_ignores_kind.2.2 (.seq [linV]) (some (.other 7)) rfl⟩

/- ## Theorems for C6 and C7 -/

/-- C6: `NonlinearProblem.F(x, b)` performs exactly, in order: zero `b`'s
local storage, assemble the residual form into `b`, apply lifting with the
Jacobian form and the problem's boundary conditions at `alpha = -1` and
`x0 = x`, ghost-accumulate `b` (reverse add), then overwrite the
constrained entries via `set_bc` with `alpha = -1` and `x0 = x`. -/
theorem C6_nonlinear_residual_order (p : NonlinearProblem) (xId bId : Nat) :
    NonlinearProblem.F p xId bId =
      [Event.zeroVec (.whole bId),
       Event.assembleVec (.whole bId) p.resForm,
       Event.applyLifting (.whole bId) [some p.jacForm] [p.nlBcs] (some xId) (-1),
       Event.ghostUpdate bId .add .reverse]
      ++ p.nlBcs.map (fun bc => Event.setBcOn (.whole bId) bc (some xId) (-1)) := rfl

/-- Counterexample for C7 as stated: `NonlinearProblem.form(x)` does not
perform the glossary-sense finalize (ghost-accumulate, i.e. a reverse
additive reconciliation toward the owning process); its sole operation is
a forward insert scatter (owner-to-ghost overwrite). -/
theorem C7_counterexample :
    NonlinearProblem.form ⟨linV, formVV, [bcV]⟩ 7 =
      [Event.ghostUpdate 7 .insert .forward] ∧
    Event.ghostUpdate 7 .add .reverse ∉ NonlinearProblem.form ⟨linV, formVV, [bcV]⟩ 7 ∧
    (Event.ghostUpdate 7 .insert .forward ≠ Event.ghostUpdate 7 .add .reverse) := by
  refine ⟨rfl, ?_, by decide⟩
  decide

/-- C7 (amended): `NonlinearProblem.form(x)` updates the ghost values of
the incoming iterate by a forward scatter in insert mode (owner-to-ghost
overwrite, `ghostUpdate(addv=INSERT, mode=FORWARD)`) — not by the
glossary-sense ghost-accumulate — and performs no other mutation of
`x`. -/
theorem C7_form_hook_forward_scatter (p : NonlinearProblem) (xId : Nat) :
    NonlinearProblem.form p xId = [Event.ghostUpdate xId .insert .forward] := rfl

/- ## Theorems for C8 -/

/-- Counterexample for C8 as stated: when the constructor raises at step 3
(creating the right-hand-side vector), the matrix `self._A` has already
been created, yet `__del__` raises `AttributeError` on the missing
`self._solver` attribute and destroys nothing — destruction fails and the
matrix is leaked. -/
theorem C8_counterexample :
    delMethod (initPartial (some 3)) = ([], some .attributeError) ∧
    (initPartial (some 3)).matA = some 0 ∧
    Event.destroy 0 ∉ (delMethod (initPartial (some 3))).1 := by
  refine ⟨by decide, by decide, by decide⟩

/-- C8 (amended): on a fully constructed instance (construction completed
through the solver-creation step), `__del__` destroys the solver, matrix,
right-hand-side vector and solution-wrap vector, in that order, without
failing; but when construction raised at or before solver creation,
`__del__` itself raises `AttributeError` and destroys none of the
already-created resources. -/
theorem C8_del_lifecycle (failAt : Option Nat) :
    (stepDone failAt 6 = true →
      delMethod (initPartial failAt) =
        ([Event.destroy 3, Event.destroy 0, Event.destroy 1, Event.destroy 2], none)) ∧
    (stepDone failAt 6 = false →
      delMethod (initPartial failAt) = ([], some .attributeError)) := by
  constructor
  · intro h6
    cases failAt with
    | none => decide
    | some f =>
        have hf : 6 < f := by
          simpa [stepDone] using h6
        simp [initPartial, delMethod, stepDone,
          show 1 < f by omega, show 3 < f by omega, show 5 < f by omega, hf]
  · intro h6
    cases failAt with
    | none => simp [stepDone] at h6
    | some f =>
        have hf : ¬ 6 < f := by
          simpa [stepDone] using h6
        simp [initPartial, delMethod, stepDone, hf]

/-- Witness for C8 (amended): a completed construction destroys all four
resources; a construction that raised at step 3 makes `__del__` fail. -/
theorem C8_del_lifecycle_witness :
    delMethod (initPartial none) =
      ([Event.destroy 3, Event.destroy 0, Event.destroy 1, Event.destroy 2], none) ∧
    delMethod (initPartial (some 3)) = ([], some .attributeError) :=
  ⟨(C8_del_lifecycle none).1 rfl, (C8_del_lifecycle (some 3)).2 (by decide)⟩

/- ## Theorems for C3 -/

/-- Helper: `assemble_matrix_mat` performs no object creation. -/
theorem assembleMatrixMat_not_create (A : MatRef) (f : BilinearForm)
    (bcs : List DirichletBC) (d : Int) :
    ∀ e ∈ assembleMatrixMat A f bcs d, e.isCreate = false := by
  intro e he
  unfold assembleMatrixMat at he
  by_cases h : f.testSpace.objId = f.trialSpace.objId
  · rw [if_pos h] at he
    simp only [List.mem_cons, List.not_mem_nil, or_false] at he
    rcases he with rfl | rfl | rfl <;> rfl
  · rw [if_neg h] at he
    simp only [List.mem_cons, List.not_mem_nil, or_false] at he
    subst he; rfl

/-- C3: every `LinearProblem.solve()` zeros the cached matrix and vector,
re-assembles both from the stored forms, applies lifting, ghost-accumulates
the vector, overwrites the constrained entries, invokes the solver,
scatter-forwards the result into the solution function and returns it; the
matrix, vector and solver objects it operates on are exactly the ones
created at construction, and `solve()` creates no object. -/
theorem C3_linear_problem_solve (a : BilinearForm) (L : LinearForm)
    (bcs : List DirichletBC) (p : LinearProblem) (itr : List Event)
    (h : LinearProblem.init a L bcs = (p, itr)) :
    (LinearProblem.solve p).1 = p.uId ∧
    (LinearProblem.solve p).2 =
      Event.zeroMat (.whole p.matId) ::
        assembleMatrixMat (.whole p.matId) a bcs 1
      ++ [Event.matFinal (.whole p.matId),
          Event.zeroVec (.whole p.vecId),
          Event.assembleVec (.whole p.vecId) L,
          Event.applyLifting (.whole p.vecId) [some a] [bcs] none 1,
          Event.ghostUpdate p.vecId .add .reverse]
      ++ bcs.map (fun bc => Event.setBcOn (.whole p.vecId) bc none 1)
      ++ [Event.solverSolve p.solverId p.vecId p.xId,
          Event.scatterForward p.uId] ∧
    (∀ e ∈ (LinearProblem.solve p).2, e.isCreate = false) ∧
    Event.createMat p.matId ∈ itr ∧ Event.createVec p.vecId ∈ itr ∧
    Event.createVec p.xId ∈ itr ∧ Event.createSolver p.solverId ∈ itr := by
  have hp : p = ⟨a, L, bcs, 0, 1, 2, 3, 4⟩ ∧
      itr = [Event.createMat 0, Event.createVec 1, Event.createVec 2,
             Event.createSolver 3] := by
    have h1 := congrArg Prod.fst h
    have h2 := congrArg Prod.snd h
    exact ⟨h1.symm, h2.symm⟩
  obtain ⟨hp1, hp2⟩ := hp
  subst hp1; subst hp2
  refine ⟨rfl, rfl, ?_, ?_, ?_, ?_, ?_⟩
  · intro e he
    simp only [LinearProblem.solve] at he
    rcases List.mem_append.mp he with he | he
    · rcases List.mem_append.mp he with he | he
      · rcases List.mem_append.mp he with he | he
        · rcases List.mem_cons.mp he with rfl | he
          · rfl
          · exact assembleMatrixMat_not_create _ _ _ _ e he
        · simp only [List.mem_cons, List.not_mem_nil, or_false] at he
          rcases he with rfl | rfl | rfl | rfl | rfl <;> rfl
      · rcases List.mem_map.mp he with ⟨bc, _, hbceq⟩
        rw [← hbceq]; rfl
    · simp only [List.mem_cons, List.not_mem_nil, or_false] at he
      rcases he with rfl | rfl <;> rfl
  · simp
  · simp
  · simp
  · simp

/-- Witness for C3 at concrete forms and boundary conditions. -/
theorem C3_linear_problem_solve_witness :
    (LinearProblem.solve (LinearProblem.init formVV linV [bcV]).1).1 =
      (LinearProblem.init formVV linV [bcV]).1.uId ∧
    (∀ e ∈ (LinearProblem.solve (LinearProblem.init formVV linV [bcV]).1).2,
      e.isCreate = false) := by
  have h := C3_linear_problem_solve formVV linV [bcV]
    (LinearProblem.init formVV linV [bcV]).1
    (LinearProblem.init formVV linV [bcV]).2 rfl
  exact ⟨h.1, h.2.2.1⟩

/- ## Theorems for C4 -/

/-- Counterexample for C4 as stated: on a non-rectangular grid,
`assemble_matrix_block` does fail with the rectangularity `ShapeError`, but
the blocked matrix container has already been created by the time the Block
Layout Resolver runs — the failure does not occur before container
allocation. -/
theorem C4_counterexample :
    (assembleMatrixBlock [[some formVV], [some formVV, some formVV]] [] 1).2 =
      some .shapeError ∧
    Event.createMat 0 ∈
      (assembleMatrixBlock [[some formVV], [some formVV, some formVV]] [] 1).1 := by
  decide

/-- C4 (amended): the Block Layout Resolver (`_extract_function_spaces`)
does fail eagerly with `ShapeError` on every non-rectangular grid, but in
`assemble_matrix_block` the blocked matrix container is created before the
resolver runs, so the failure occurs after — not before — the container
allocation (the trace up to the failure is exactly the creation event). -/
theorem C4_shape_error_after_allocation :
    (∀ a, rectangularGrid a = false →
      extractFunctionSpaces a = .error .shapeError) ∧
    (∀ (a : List (List (Option BilinearForm))) (bcs : List DirichletBC) (d : Int),
      rectangularGrid a = false →
        (assembleMatrixBlock a bcs d).2 = some .shapeError ∧
        (assembleMatrixBlock a bcs d).1 = [Event.createMat 0]) := by
  have hex : ∀ a, rectangularGrid a = false →
      extractFunctionSpaces a = .error .shapeError := by
    intro a h
    simp [extractFunctionSpaces, h]
  refine ⟨hex, ?_⟩
  intro a bcs d h
  constructor
  · simp [assembleMatrixBlock, assembleMatrixBlockMat, hex a h]
  · simp [assembleMatrixBlock, assembleMatrixBlockMat, hex a h]

/-- Witness for C4 (amended) at a concrete ragged grid. -/
theorem C4_shape_error_after_allocation_witness :
    extractFunctionSpaces [[some formVV], [some formVV, some formVV]] =
      .error .shapeError ∧
    (assembleMatrixBlock [[some formVV], [some formVV, some formVV]] [bcV] 1).1 =
      [Event.createMat 0] :=
  ⟨C4_shape_error_after_allocation.1 [[some formVV], [some formVV, some formVV]]
      (by decide),
   (C4_shape_error_after_allocation.2 [[some formVV], [some formVV, some formVV]]
      [bcV] 1 (by decide)).2⟩

/- ## Theorems for C5 -/

/-- Helper: the additive-fill cell loop of `_assemble_matrix_block_mat`
emits only additive accumulation events. -/
theorem blockPhase1Cells_adds (AId i : Nat) (wholeRow : List (Option BilinearForm))
    (bcs : List DirichletBC) :
    ∀ (cells : List (Option BilinearForm)) (j : Nat),
      ∀ e ∈ (blockPhase1Cells AId i wholeRow bcs j cells).1,
        isMatAddEvent e = true := by
  intro cells
  induction cells with
  | nil => intro j e he; simp [blockPhase1Cells] at he
  | cons c rest ih =>
      intro j e he
      cases c with
      | some f =>
          simp only [blockPhase1Cells] at he
          rcases List.mem_cons.mp he with rfl | he2
          · rfl
          · exact ih (j + 1) e he2
      | none =>
          simp only [blockPhase1Cells] at he
          by_cases hij : i = j
          · rw [if_pos hij] at he
            cases hdc : diagNoneCheck i wholeRow bcs with
            | some err => rw [hdc] at he; simp at he
            | none => rw [hdc] at he; exact ih (j + 1) e he
          · rw [if_neg hij] at he
            exact ih (j + 1) e he

/-- Helper: the additive-fill row loop of `_assemble_matrix_block_mat`
emits only additive accumulation events. -/
theorem blockPhase1Rows_adds (AId : Nat) (bcs : List DirichletBC) :
    ∀ (rows : List (List (Option BilinearForm))) (i : Nat),
      ∀ e ∈ (blockPhase1Rows AId bcs i rows).1, isMatAddEvent e = true := by
  intro rows
  induction rows with
  | nil => intro i e he; simp [blockPhase1Rows] at he
  | cons row rest ih =>
      intro i e he
      simp only [blockPhase1Rows] at he
      cases hc : blockPhase1Cells AId i row bcs 0 row with
      | mk evs err =>
          rw [hc] at he
          cases err with
          | some e2 =>
              simp only at he
              exact blockPhase1Cells_adds AId i row bcs row 0 e (hc ▸ he)
          | none =>
              simp only at he
              rcases List.mem_append.mp he with he | he
              · exact blockPhase1Cells_adds AId i row bcs row 0 e (hc ▸ he)
              · exact ih (i + 1) e he

/-- Helper: every event of the diagonal-insertion cell loop is a diagonal
insertion on a present square cell of the scanned row. -/
theorem blockDiagCells_mem (AId : Nat) (bcs : List DirichletBC) (d : Int) (i : Nat) :
    ∀ (cells : List (Option BilinearForm)) (j : Nat) (e : Event),
      e ∈ blockDiagCells AId bcs d i j cells →
      ∃ k f, cells[k]? = some (some f) ∧
        f.testSpace.objId = f.trialSpace.objId ∧
        e = Event.insertDiag (.blockSub AId i (j + k)) f.testSpace bcs d := by
  intro cells
  induction cells with
  | nil => intro j e he; simp [blockDiagCells] at he
  | cons c rest ih =>
      intro j e he
      cases c with
      | none =>
          simp only [blockDiagCells] at he
          obtain ⟨k, f, hk, hsq, hev⟩ := ih (j + 1) e he
          refine ⟨k + 1, f, by simpa using hk, hsq, ?_⟩
          rw [show j + (k + 1) = (j + 1) + k from by omega]
          exact hev
      | some f0 =>
          simp only [blockDiagCells] at he
          rcases List.mem_append.mp he with he | he
          · by_cases hsq : f0.testSpace.objId = f0.trialSpace.objId
            · rw [if_pos hsq] at he
              rcases List.mem_cons.mp he with rfl | he
              · exact ⟨0, f0, by simp, hsq, by simp⟩
              · simp at he
            · rw [if_neg hsq] at he
              simp at he
          · obtain ⟨k, f, hk, hsq, hev⟩ := ih (j + 1) e he
            refine ⟨k + 1, f, by simpa using hk, hsq, ?_⟩
            rw [show j + (k + 1) = (j + 1) + k from by omega]
            exact hev

/-- Helper: every event of the diagonal-insertion row loop is a diagonal
insertion on a present square cell of the grid. -/
theorem blockDiagRows_mem (AId : Nat) (bcs : List DirichletBC) (d : Int) :
    ∀ (rows : List (List (Option BilinearForm))) (i : Nat) (e : Event),
      e ∈ blockDiagRows AId bcs d i rows →
      ∃ r row k f, rows[r]? = some row ∧ row[k]? = some (some f) ∧
        f.testSpace.objId = f.trialSpace.objId ∧
        e = Event.insertDiag (.blockSub AId (i + r) k) f.testSpace bcs d := by
  intro rows
  induction rows with
  | nil => intro i e he; simp [blockDiagRows] at he
  | cons row rest ih =>
      intro i e he
      simp only [blockDiagRows] at he
      rcases List.mem_append.mp he with he | he
      · obtain ⟨k, f, hk, hsq, hev⟩ := blockDiagCells_mem AId bcs d i row 0 e he
        refine ⟨0, row, k, f, by simp, hk, hsq, ?_⟩
        rw [show i + 0 = i from rfl, show k = 0 + k from (Nat.zero_add k).symm]
        exact hev
      · obtain ⟨r, row2, k, f, hr, hk, hsq, hev⟩ := ih (i + 1) e he
        refine ⟨r + 1, row2, k, f, by simpa using hr, hk, hsq, ?_⟩
        rw [show i + (r + 1) = (i + 1) + r from by omega]
        exact hev

/-- C5: in `assemble_matrix_mat`, the diagonal is inserted at constrained
degrees of freedom only when the form's test and trial spaces are the
identical object, with a flush assembly between the additive accumulation
and the insertion, and no insertion happens when the spaces differ; in the
diagonal pass of `assemble_matrix_block`, one flush separates the additive
fill of all blocks from the diagonal insertions, and an insertion occurs
only on a present block whose test space is identically its trial
space. -/
theorem C5_diag_insertion_flush :
    (∀ (A : MatRef) (f : BilinearForm) (bcs : List DirichletBC) (d : Int),
      (f.testSpace.objId = f.trialSpace.objId →
        assembleMatrixMat A f bcs d =
          [Event.assembleMatAdd A f, Event.matFlush A,
           Event.insertDiag A f.testSpace bcs d]) ∧
      (f.testSpace.objId ≠ f.trialSpace.objId →
        assembleMatrixMat A f bcs d = [Event.assembleMatAdd A f])) ∧
    (∀ (AId : Nat) (a : List (List (Option BilinearForm)))
        (bcs : List DirichletBC) (d : Int),
      (assembleMatrixBlockMat AId a bcs d).2 = none →
      ∃ adds,
        (assembleMatrixBlockMat AId a bcs d).1 =
          adds ++ Event.matFlush (.whole AId) :: blockDiagRows AId bcs d 0 a ∧
        (∀ e ∈ adds, isMatAddEvent e = true) ∧
        (∀ e ∈ blockDiagRows AId bcs d 0 a, ∃ r row k f,
          a[r]? = some row ∧ row[k]? = some (some f) ∧
          f.testSpace.objId = f.trialSpace.objId ∧
          e = Event.insertDiag (.blockSub AId r k) f.testSpace bcs d)) := by
  constructor
  · intro A f bcs d
    constructor
    · intro h
      simp [assembleMatrixMat, h]
    · intro h
      simp [assembleMatrixMat, h]
  · intro AId a bcs d hnone
    cases hex : extractFunctionSpaces a with
    | error e => simp [assembleMatrixBlockMat, hex] at hnone
    | ok V =>
        cases hph : blockPhase1Rows AId bcs 0 a with
        | mk evs err =>
            cases err with
            | some e2 => simp [assembleMatrixBlockMat, hex, hph] at hnone
            | none =>
                refine ⟨evs, by simp [assembleMatrixBlockMat, hex, hph], ?_, ?_⟩
                · intro e he
                  have h1 : (blockPhase1Rows AId bcs 0 a).1 = evs := by rw [hph]
                  exact blockPhase1Rows_adds AId bcs a 0 e (h1.symm ▸ he)
                · intro e he
                  obtain ⟨r, row, k, f, hr, hk, hsq, hev⟩ :=
                    blockDiagRows_mem AId bcs d a 0 e he
                  refine ⟨r, row, k, f, hr, hk, hsq, ?_⟩
                  rw [show r = 0 + r from (Nat.zero_add r).symm]
                  exact hev

/-- Witness for C5: a square single form gets the flush-then-insert tail, a
rectangular single form does not, and a concrete one-block grid assembles
with the global flush between fill and diagonal insertion. -/
theorem C5_diag_insertion_flush_witness :
    assembleMatrixMat (.whole 0) formVV [bcV] 1 =
      [Event.assembleMatAdd (.whole 0) formVV, Event.matFlush (.whole 0),
       Event.insertDiag (.whole 0) sampleV [bcV] 1] ∧
    assembleMatrixMat (.whole 0) formVW [bcV] 1 =
      [Event.assembleMatAdd (.whole 0) formVW] ∧
    ∃ adds,
      (assembleMatrixBlockMat 0 [[some formVV]] [bcV] 1).1 =
        adds ++ Event.matFlush (.whole 0) ::
          blockDiagRows 0 [bcV] 1 0 [[some formVV]] ∧
      (∀ e ∈ adds, isMatAddEvent e = true) ∧
      (∀ e ∈ blockDiagRows 0 [bcV] 1 0 [[some formVV]], ∃ r row k f,
        [[some formVV]][r]? = some row ∧ row[k]? = some (some f) ∧
        f.testSpace.objId = f.trialSpace.objId ∧
        e = Event.insertDiag (.blockSub 0 r k) f.testSpace [bcV] 1) :=
  ⟨(C5_diag_insertion_flush.1 (.whole 0) formVV [bcV] 1).1 (by decide),
   (C5_diag_insertion_flush.1 (.whole 0) formVW [bcV] 1).2 (by decide),
   C5_diag_insertion_flush.2 0 [[some formVV]] [bcV] 1 (by decide)⟩

/- ## Theorems for C1 -/

/-- Helper: in the fill loop of `_assemble_vector_block_vec`, each block's
fill event is immediately followed by that block's lifting event, as an
infix of the loop's trace, at the block's index. -/
theorem blockFillPhase_isInfix (bId : Nat) (bcs1 : List (List DirichletBC))
    (x0 : Option Nat) (alpha : Int) :
    ∀ (L : List LinearForm) (arest : List (List (Option BilinearForm)))
      (k i : Nat) (Li : LinearForm) (ai : List (Option BilinearForm)),
      L[i]? = some Li → arest[i]? = some ai →
      [Event.assembleVec (.localSeg bId (k + i)) Li,
       Event.applyLifting (.localSeg bId (k + i)) ai bcs1 x0 alpha] <:+:
        blockFillPhase bId bcs1 x0 alpha k L arest := by
  intro L
  induction L with
  | nil => intro arest k i Li ai hL ha; simp at hL
  | cons L0 Ls ih =>
      intro arest k i Li ai hL ha
      cases arest with
      | nil => simp at ha
      | cons a0 arest2 =>
          cases i with
          | zero =>
              simp only [List.getElem?_cons_zero, Option.some.injEq] at hL ha
              subst hL; subst ha
              refine ⟨[], blockFillPhase bId bcs1 x0 alpha (k + 1) Ls arest2, ?_⟩
              simp [blockFillPhase]
          | succ i2 =>
              simp only [List.getElem?_cons_succ] at hL ha
              have h := ih arest2 (k + 1) i2 Li ai hL ha
              have h3 : [Event.assembleVec (.localSeg bId ((k + 1) + i2)) Li,
                  Event.applyLifting (.localSeg bId ((k + 1) + i2)) ai bcs1 x0 alpha] <:+:
                  Event.assembleVec (.localSeg bId k) L0 ::
                  Event.applyLifting (.localSeg bId k) a0 bcs1 x0 alpha ::
                  blockFillPhase bId bcs1 x0 alpha (k + 1) Ls arest2 :=
                List.infix_cons (List.infix_cons h)
              rw [show k + (i2 + 1) = (k + 1) + i2 from by omega]
              simpa [blockFillPhase] using h3

/-- Helper: the fill loop emits only fill and lifting events. -/
theorem blockFillPhase_kinds (bId : Nat) (bcs1 : List (List DirichletBC))
    (x0 : Option Nat) (alpha : Int) :
    ∀ (L : List LinearForm) (arest : List (List (Option BilinearForm))) (k : Nat),
      ∀ e ∈ blockFillPhase bId bcs1 x0 alpha k L arest,
        isLocalPhaseEvent e = true := by
  intro L
  induction L with
  | nil => intro arest k e he; simp [blockFillPhase] at he
  | cons L0 Ls ih =>
      intro arest k e he
      cases arest with
      | nil => simp [blockFillPhase] at he
      | cons a0 arest2 =>
          simp only [blockFillPhase] at he
          rcases List.mem_cons.mp he with rfl | he
          · rfl
          rcases List.mem_cons.mp he with rfl | he
          · rfl
          · exact ih arest2 (k + 1) e he

/-- Helper: the overwrite loop emits only `bc.set` events. -/
theorem blockSetBcPhase_kinds (bId : Nat) (x0 : Option Nat) (alpha : Int) :
    ∀ (groups : List (List DirichletBC)) (i : Nat),
      ∀ e ∈ blockSetBcPhase bId x0 alpha i groups, isSetBcEvent e = true := by
  intro groups
  induction groups with
  | nil => intro i e he; simp [blockSetBcPhase] at he
  | cons g rest ih =>
      intro i e he
      simp only [blockSetBcPhase] at he
      rcases List.mem_append.mp he with he | he
      · obtain ⟨bc, _, hbe⟩ := List.mem_map.mp he
        rw [← hbe]; rfl
      · exact ih (i + 1) e he

/-- Counterexample for C1 as stated: in a one-block system whose diagonal
form has trial space `V` and whose single boundary condition constrains
`V`, block row 0's lifting call receives the non-empty boundary-condition
group of its own block's trial space (column 0) — the lifting does not use
only the *other* blocks' trial-space boundary conditions. -/
theorem C1_counterexample :
    (assembleVectorBlockVec 0 [linV] [[some formVV]] [bcV] none 1)[1]? =
      some (Event.applyLifting (.localSeg 0 0) [some formVV] [[bcV]] none 1) ∧
    extractSpacesCols [[some formVV]] = [some sampleV] ∧
    bcsByBlock (extractSpacesCols [[some formVV]]) [bcV] = [[bcV]] ∧
    sampleV.contains bcV.functionSpace = true := by decide

/-- C1 (amended): in `_assemble_vector_block_vec`, each block's lifting is
applied to that block's purely local segment immediately after the block's
fill and before the single global reverse-add ghost update, using the
boundary conditions of *all* blocks' trial spaces grouped per block column
(the block's own diagonal trial-space conditions included), and the direct
boundary overwrite on the owned sub-ranges happens strictly after the
ghost update. -/
theorem C1_block_vector_lifting (bId : Nat) (L : List LinearForm)
    (a : List (List (Option BilinearForm))) (bcs : List DirichletBC)
    (x0 : Option Nat) (alpha : Int) (i : Nat) (Li : LinearForm)
    (ai : List (Option BilinearForm))
    (hL : L[i]? = some Li) (ha : a[i]? = some ai) :
    ∃ pre post,
      assembleVectorBlockVec bId L a bcs x0 alpha =
        pre ++ Event.ghostUpdate bId .add .reverse :: post ∧
      [Event.assembleVec (.localSeg bId i) Li,
       Event.applyLifting (.localSeg bId i) ai
         (bcsByBlock (extractSpacesCols a) bcs) x0 alpha] <:+: pre ∧
      (∀ e ∈ pre, isLocalPhaseEvent e = true) ∧
      post = blockSetBcPhase bId x0 alpha 0
        (bcsByBlock (L.map (fun f => some f.testSpace)) bcs) ∧
      (∀ e ∈ post, isSetBcEvent e = true) := by
  refine ⟨blockFillPhase bId (bcsByBlock (extractSpacesCols a) bcs) x0 alpha 0 L a
      ++ [Event.scatterLocal bId],
    blockSetBcPhase bId x0 alpha 0 (bcsByBlock (L.map (fun f => some f.testSpace)) bcs),
    ?_, ?_, ?_, rfl, ?_⟩
  · simp [assembleVectorBlockVec]
  · have h := blockFillPhase_isInfix bId (bcsByBlock (extractSpacesCols a) bcs)
      x0 alpha L a 0 i Li ai hL ha
    have h2 : blockFillPhase bId (bcsByBlock (extractSpacesCols a) bcs) x0 alpha 0 L a
        <:+: blockFillPhase bId (bcsByBlock (extractSpacesCols a) bcs) x0 alpha 0 L a
          ++ [Event.scatterLocal bId] :=
      ⟨[], [Event.scatterLocal bId], by simp⟩
    simpa using h.trans h2
  · intro e he
    rcases List.mem_append.mp he with he | he
    · exact blockFillPhase_kinds bId _ x0 alpha L a 0 e he
    · simp only [List.mem_singleton] at he
      subst he; rfl
  · intro e he
    exact blockSetBcPhase_kinds bId x0 alpha _ 0 e he

/-- Witness for C1 (amended) at a concrete one-block system. -/
theorem C1_block_vector_lifting_witness :
    ∃ pre post,
      assembleVectorBlockVec 0 [linV] [[some formVV]] [bcV] none 1 =
        pre ++ Event.ghostUpdate 0 .add .reverse :: post ∧
      [Event.assembleVec (.localSeg 0 0) linV,
       Event.applyLifting (.localSeg 0 0) [some formVV]
         (bcsByBlock (extractSpacesCols [[some formVV]]) [bcV]) none 1] <:+: pre ∧
      (∀ e ∈ pre, isLocalPhaseEvent e = true) ∧
      post = blockSetBcPhase 0 none 1 0
        (bcsByBlock ([linV].map (fun f => some f.testSpace)) [bcV]) ∧
      (∀ e ∈ post, isSetBcEvent e = true) :=
  C1_block_vector_lifting 0 [linV] [[some formVV]] [bcV] none 1 0 linV
    [some formVV] rfl rfl

/- ## Theorems for C2 -/

/-- Helper: `findSome?` over a constant-result conditional is determined by
`any`. -/
theorem list_findSome?_ite {α β : Type} (p : α → Bool) (c : β) :
    ∀ l : List α,
      l.findSome? (fun x => if p x then some c else none) =
        if l.any p then some c else none := by
  intro l
  induction l with
  | nil => rfl
  | cons x l ih =>
      by_cases h : p x = true
      · simp [List.findSome?_cons, h]
      · simp [List.findSome?_cons, h, ih]

/-- Helper: on a row with at least one non-absent form, the absent-diagonal
check fires exactly when some boundary condition's space is contained in
the first non-absent form's *test* space. -/
theorem diagNoneCheck_eq_ite (i : Nat) (row : List (Option BilinearForm))
    (bcs : List DirichletBC) (f : BilinearForm) (rest : List BilinearForm)
    (hrow : row.filterMap id = f :: rest) :
    diagNoneCheck i row bcs =
      if bcs.any (fun bc => f.testSpace.contains bc.functionSpace)
      then some (.configurationError i i) else none := by
  unfold diagNoneCheck
  simp only [hrow]
  exact list_findSome?_ite _ _ bcs

/-- Helper: the absent-diagonal check only ever raises the
`ConfigurationError` for its own diagonal index, or the non-empty-row
`AssertionError`. -/
theorem diagNoneCheck_shape (i : Nat) (row : List (Option BilinearForm))
    (bcs : List DirichletBC) (e : AsmError)
    (h : diagNoneCheck i row bcs = some e) :
    e = .configurationError i i ∨ e = .assertionErr := by
  cases hr : row.filterMap id with
  | nil =>
      unfold diagNoneCheck at h
      simp only [hr] at h
      cases bcs with
      | nil => simp [List.findSome?] at h
      | cons b bs =>
          rw [List.findSome?_cons] at h
          have h2 : (some AsmError.assertionErr : Option AsmError) = some e := h
          exact Or.inr (Option.some.inj h2).symm
  | cons f rest =>
      rw [diagNoneCheck_eq_ite i row bcs f rest hr] at h
      by_cases hany : bcs.any (fun bc => f.testSpace.contains bc.functionSpace) = true
      · rw [if_pos hany] at h
        exact Or.inl (Option.some.inj h).symm
      · rw [if_neg hany] at h
        cases h

/-- Helper: the nest cell scan of one row errors exactly when the row's
diagonal cell lies in the scanned remainder, is absent, and the
absent-diagonal check fires. -/
theorem nestCells_err_isSome (AId i : Nat) (wholeRow : List (Option BilinearForm))
    (bcs : List DirichletBC) (d : Int) :
    ∀ (cells : List (Option BilinearForm)) (j : Nat),
      (nestCells AId i wholeRow bcs d j cells).2.isSome = true ↔
        ∃ k, cells[k]? = some none ∧ j + k = i ∧
          (diagNoneCheck i wholeRow bcs).isSome = true := by
  intro cells
  induction cells with
  | nil => intro j; simp [nestCells]
  | cons c rest ih =>
      intro j
      cases c with
      | some f =>
          simp only [nestCells]
          rw [ih (j + 1)]
          constructor
          · rintro ⟨k, hk, hjk, hds⟩
            exact ⟨k + 1, by simpa using hk, by omega, hds⟩
          · rintro ⟨k, hk, hjk, hds⟩
            cases k with
            | zero => simp at hk
            | succ k2 => exact ⟨k2, by simpa using hk, by omega, hds⟩
      | none =>
          by_cases hij : i = j
          · simp only [nestCells, if_pos hij]
            cases hdc : diagNoneCheck i wholeRow bcs with
            | some err =>
                constructor
                · intro _
                  exact ⟨0, by simp, by omega, by simp⟩
                · intro _
                  rfl
            | none =>
                constructor
                · intro h
                  obtain ⟨k, hk, hjk, hds⟩ := (ih (j + 1)).mp h
                  rw [hdc] at hds
                  simp at hds
                · rintro ⟨k, hk, hjk, hds⟩
                  simp at hds
          · simp only [nestCells, if_neg hij]
            rw [ih (j + 1)]
            constructor
            · rintro ⟨k, hk, hjk, hds⟩
              exact ⟨k + 1, by simpa using hk, by omega, hds⟩
            · rintro ⟨k, hk, hjk, hds⟩
              cases k with
              | zero => exact absurd (by omega : i = j) hij
              | succ k2 => exact ⟨k2, by simpa using hk, by omega, hds⟩

/-- Helper: the nest row scan errors exactly when some row's cell scan
does. -/
theorem nestRows_err_isSome (AId : Nat) (bcs : List DirichletBC) (d : Int) :
    ∀ (rows : List (List (Option BilinearForm))) (i : Nat),
      (nestRows AId bcs d i rows).2.isSome = true ↔
        ∃ r row, rows[r]? = some row ∧
          (nestCells AId (i + r) row bcs d 0 row).2.isSome = true := by
  intro rows
  induction rows with
  | nil => intro i; simp [nestRows]
  | cons row rest ih =>
      intro i
      simp only [nestRows]
      cases hc : nestCells AId i row bcs d 0 row with
      | mk evs err =>
          cases err with
          | some e2 =>
              constructor
              · intro _
                exact ⟨0, row, by simp, by simp [hc]⟩
              · intro _
                rfl
          | none =>
              constructor
              · intro h
                have h2 : (nestRows AId bcs d (i + 1) rest).2.isSome = true := h
                obtain ⟨r, row2, hr, hsome⟩ := (ih (i + 1)).mp h2
                refine ⟨r + 1, row2, by simpa using hr, ?_⟩
                rw [show i + (r + 1) = (i + 1) + r from by omega]
                exact hsome
              · rintro ⟨r, row2, hr, hsome⟩
                cases r with
                | zero =>
                    exfalso
                    simp only [List.getElem?_cons_zero, Option.some.injEq] at hr
                    subst hr
                    simp [hc] at hsome
                | succ r2 =>
                    show (nestRows AId bcs d (i + 1) rest).2.isSome = true
                    apply (ih (i + 1)).mpr
                    refine ⟨r2, row2, by simpa using hr, ?_⟩
                    rw [show (i + 1) + r2 = i + (r2 + 1) from by omega]
                    exact hsome

/-- Helper: `_assemble_matrix_nest_mat` errors exactly at an absent
diagonal cell whose row triggers the absent-diagonal check. -/
theorem nest_err_characterization (AId : Nat)
    (a : List (List (Option BilinearForm))) (bcs : List DirichletBC) (d : Int) :
    (assembleMatrixNestMat AId a bcs d).2.isSome = true ↔
      ∃ i row, a[i]? = some row ∧ row[i]? = some none ∧
        (diagNoneCheck i row bcs).isSome = true := by
  unfold assembleMatrixNestMat
  rw [nestRows_err_isSome AId bcs d a 0]
  constructor
  · rintro ⟨r, row, hr, hsome⟩
    rw [nestCells_err_isSome AId (0 + r) row bcs d row 0] at hsome
    obtain ⟨k, hk, hjk, hds⟩ := hsome
    refine ⟨r, row, hr, ?_, by simpa using hds⟩
    rw [show r = k from by omega]
    exact hk
  · rintro ⟨i, row, ha, hd, hds⟩
    refine ⟨i, row, ha, ?_⟩
    rw [nestCells_err_isSome AId (0 + i) row bcs d row 0]
    exact ⟨i, hd, by omega, by simpa using hds⟩

/-- Helper: every error of the nest cell scan is the row's own diagonal
`ConfigurationError` or the `AssertionError`. -/
theorem nestCells_err_shape (AId i : Nat) (wholeRow : List (Option BilinearForm))
    (bcs : List DirichletBC) (d : Int) :
    ∀ (cells : List (Option BilinearForm)) (j : Nat) (e : AsmError),
      (nestCells AId i wholeRow bcs d j cells).2 = some e →
      e = .configurationError i i ∨ e = .assertionErr := by
  intro cells
  induction cells with
  | nil => intro j e h; simp [nestCells] at h
  | cons c rest ih =>
      intro j e h
      cases c with
      | some f =>
          simp only [nestCells] at h
          exact ih (j + 1) e h
      | none =>
          simp only [nestCells] at h
          by_cases hij : i = j
          · rw [if_pos hij] at h
            cases hdc : diagNoneCheck i wholeRow bcs with
            | some err =>
                rw [hdc] at h
                have h2 : (some err : Option AsmError) = some e := h
                have he : err = e := Option.some.inj h2
                subst he
                exact diagNoneCheck_shape i wholeRow bcs err hdc
            | none =>
                rw [hdc] at h
                exact ih (j + 1) e h
          · rw [if_neg hij] at h
            exact ih (j + 1) e h

/-- Helper: every error of the nest row scan is a diagonal
`ConfigurationError` or the `AssertionError`. -/
theorem nestRows_err_shape (AId : Nat) (bcs : List DirichletBC) (d : Int) :
    ∀ (rows : List (List (Option BilinearForm))) (i : Nat) (e : AsmError),
      (nestRows AId bcs d i rows).2 = some e →
      (∃ i2, e = .configurationError i2 i2) ∨ e = .assertionErr := by
  intro rows
  induction rows with
  | nil => intro i e h; simp [nestRows] at h
  | cons row rest ih =>
      intro i e h
      simp only [nestRows] at h
      cases hc : nestCells AId i row bcs d 0 row with
      | mk evs err =>
          rw [hc] at h
          cases err with
          | some e2 =>
              have h2 : (some e2 : Option AsmError) = some e := h
              have he : e2 = e := Option.some.inj h2
              subst he
              have hc2 : (nestCells AId i row bcs d 0 row).2 = some e2 := by
                rw [hc]
              rcases nestCells_err_shape AId i row bcs d row 0 e2 hc2 with h3 | h3
              · exact Or.inl ⟨i, h3⟩
              · exact Or.inr h3
          | none =>
              exact ih (i + 1) e h

/-- Helper: the additive-fill cell scan of the block assembler raises
exactly the same error as the nest cell scan (their traces differ, their
control flow does not). -/
theorem blockPhase1Cells_snd (AId i : Nat) (wholeRow : List (Option BilinearForm))
    (bcs : List DirichletBC) (d : Int) :
    ∀ (cells : List (Option BilinearForm)) (j : Nat),
      (blockPhase1Cells AId i wholeRow bcs j cells).2 =
        (nestCells AId i wholeRow bcs d j cells).2 := by
  intro cells
  induction cells with
  | nil => intro j; rfl
  | cons c rest ih =>
      intro j
      cases c with
      | some f =>
          simp only [blockPhase1Cells, nestCells]
          exact ih (j + 1)
      | none =>
          simp only [blockPhase1Cells, nestCells]
          by_cases hij : i = j
          · rw [if_pos hij, if_pos hij]
            cases hdc : diagNoneCheck i wholeRow bcs with
            | some err => rfl
            | none => exact ih (j + 1)
          · rw [if_neg hij, if_neg hij]
            exact ih (j + 1)

/-- Helper: the additive-fill row scan of the block assembler raises
exactly the same error as the nest row scan. -/
theorem blockPhase1Rows_snd (AId : Nat) (bcs : List DirichletBC) (d : Int) :
    ∀ (rows : List (List (Option BilinearForm))) (i : Nat),
      (blockPhase1Rows AId bcs i rows).2 = (nestRows AId bcs d i rows).2 := by
  intro rows
  induction rows with
  | nil => intro i; rfl
  | cons row rest ih =>
      intro i
      simp only [blockPhase1Rows, nestRows]
      cases hbc : blockPhase1Cells AId i row bcs 0 row with
      | mk evs1 err1 =>
          cases hnc : nestCells AId i row bcs d 0 row with
          | mk evs2 err2 =>
              have hsnd : err1 = err2 := by
                have h := blockPhase1Cells_snd AId i row bcs d row 0
                rw [hbc, hnc] at h
                exact h
              subst hsnd
              cases err1 with
              | some e2 => rfl
              | none => exact ih (i + 1)

/-- Helper: `_assemble_matrix_block_mat` errors exactly when the Block
Layout Resolver raises, or an absent diagonal cell triggers the
absent-diagonal check. -/
theorem block_err_characterization (AId : Nat)
    (a : List (List (Option BilinearForm))) (bcs : List DirichletBC) (d : Int) :
    (assembleMatrixBlockMat AId a bcs d).2.isSome = true ↔
      (∃ e, extractFunctionSpaces a = .error e) ∨
      ∃ i row, a[i]? = some row ∧ row[i]? = some none ∧
        (diagNoneCheck i row bcs).isSome = true := by
  cases hex : extractFunctionSpaces a with
  | error e =>
      have hres : (assembleMatrixBlockMat AId a bcs d).2 = some e := by
        simp [assembleMatrixBlockMat, hex]
      rw [hres]
      constructor
      · intro _
        exact Or.inl ⟨e, rfl⟩
      · intro _
        rfl
  | ok V =>
      have hres : (assembleMatrixBlockMat AId a bcs d).2 =
          (blockPhase1Rows AId bcs 0 a).2 := by
        simp only [assembleMatrixBlockMat, hex]
        cases hph : blockPhase1Rows AId bcs 0 a with
        | mk evs err => cases err <;> rfl
      rw [hres, blockPhase1Rows_snd AId bcs d a 0]
      have hnest := nest_err_characterization AId a bcs d
      constructor
      · intro h
        exact Or.inr (hnest.mp h)
      · intro h
        rcases h with ⟨e, he⟩ | h
        · simp at he
        · exact hnest.mpr h

/-- Helper: every error of the Block Layout Resolver is the rectangularity
`ShapeError` or a length `AssertionError`. -/
theorem extractFunctionSpaces_err_shape (a : List (List (Option BilinearForm)))
    (e : AsmError) (h : extractFunctionSpaces a = .error e) :
    e = .shapeError ∨ e = .assertionErr := by
  unfold extractFunctionSpaces at h
  by_cases hr : rectangularGrid a = false
  · rw [if_pos hr] at h
    injection h with h2
    exact Or.inl h2.symm
  · rw [if_neg hr] at h
    split at h
    · cases h
    · injection h with h2
      exact Or.inr h2.symm

/-- Counterexample for C2 as stated: a rectangular grid with an absent
diagonal block `(0, 0)` whose *trial* space (the column-0 trial space `U`)
is constrained by the supplied boundary condition, yet both the nest and
the block assembler complete without raising — the code checks the row's
*test* space (`function_spaces[0]` of the first non-absent row form, here
`V`), not the trial space. -/
theorem C2_counterexample :
    extractSpacesCols [[none, some formVW], [some formTU, some formTW]] =
      [some sampleU, some sampleW] ∧
    sampleU.contains bcU.functionSpace = true ∧
    ([[none, some formVW], [some formTU, some formTW]].getD 0 []).getD 0 none =
      none ∧
    (assembleMatrixNestMat 0 [[none, some formVW], [some formTU, some formTW]]
      [bcU] 1).2 = none ∧
    (assembleMatrixBlockMat 0 [[none, some formVW], [some formTU, some formTW]]
      [bcU] 1).2 = none := by decide

/-- C2 (amended): the absent-diagonal check raises the
`ConfigurationError` precisely when a supplied boundary condition's space
is contained in the row's *test* space (the test space of the first
non-absent form in that row) — not its trial space; both assemblers error
exactly at an absent diagonal cell whose check fires (absent off-diagonal
cells never raise), the block assembler additionally failing on Block
Layout Resolver errors; and every raised error is a diagonal
`ConfigurationError`, the `AssertionError` for a row with no form, or — for
the block assembler — a resolver `ShapeError`/`AssertionError`. -/
theorem C2_absent_diagonal_bc_check :
    (∀ (i : Nat) (row : List (Option BilinearForm)) (bcs : List DirichletBC)
        (f : BilinearForm) (rest : List BilinearForm),
      row.filterMap id = f :: rest →
      (diagNoneCheck i row bcs = some (.configurationError i i) ↔
        ∃ bc ∈ bcs, f.testSpace.contains bc.functionSpace = true)) ∧
    (∀ (AId : Nat) (a : List (List (Option BilinearForm)))
        (bcs : List DirichletBC) (d : Int),
      ((assembleMatrixNestMat AId a bcs d).2.isSome = true ↔
        ∃ i row, a[i]? = some row ∧ row[i]? = some none ∧
          (diagNoneCheck i row bcs).isSome = true) ∧
      (∀ e, (assembleMatrixNestMat AId a bcs d).2 = some e →
        (∃ i2, e = .configurationError i2 i2) ∨ e = .assertionErr)) ∧
    (∀ (AId : Nat) (a : List (List (Option BilinearForm)))
        (bcs : List DirichletBC) (d : Int),
      ((assembleMatrixBlockMat AId a bcs d).2.isSome = true ↔
        (∃ e, extractFunctionSpaces a = .error e) ∨
        ∃ i row, a[i]? = some row ∧ row[i]? = some none ∧
          (diagNoneCheck i row bcs).isSome = true) ∧
      (∀ e, (assembleMatrixBlockMat AId a bcs d).2 = some e →
        e = .shapeError ∨ e = .assertionErr ∨
          ∃ i2, e = .configurationError i2 i2)) := by
  refine ⟨?_, ?_, ?_⟩
  · intro i row bcs f rest hrow
    rw [diagNoneCheck_eq_ite i row bcs f rest hrow]
    by_cases hany : bcs.any (fun bc => f.testSpace.contains bc.functionSpace) = true
    · rw [if_pos hany]
      constructor
      · intro _
        exact List.any_eq_true.mp hany
      · intro _
        rfl
    · rw [if_neg hany]
      constructor
      · intro h
        cases h
      · intro h
        exact absurd (List.any_eq_true.mpr h) hany
  · intro AId a bcs d
    refine ⟨nest_err_characterization AId a bcs d, ?_⟩
    intro e h
    exact nestRows_err_shape AId bcs d a 0 e h
  · intro AId a bcs d
    refine ⟨block_err_characterization AId a bcs d, ?_⟩
    intro e h
    cases hex : extractFunctionSpaces a with
    | error e2 =>
        have hres : (assembleMatrixBlockMat AId a bcs d).2 = some e2 := by
          simp [assembleMatrixBlockMat, hex]
        rw [hres] at h
        have he : e2 = e := Option.some.inj h
        subst he
        rcases extractFunctionSpaces_err_shape a e2 hex with h2 | h2
        · exact Or.inl h2
        · exact Or.inr (Or.inl h2)
    | ok V =>
        have hres : (assembleMatrixBlockMat AId a bcs d).2 =
            (blockPhase1Rows AId bcs 0 a).2 := by
          simp only [assembleMatrixBlockMat, hex]
          cases hph : blockPhase1Rows AId bcs 0 a with
          | mk evs err => cases err <;> rfl
        rw [hres, blockPhase1Rows_snd AId bcs d a 0] at h
        rcases nestRows_err_shape AId bcs d a 0 e h with h2 | h2
        · exact Or.inr (Or.inr h2)
        · exact Or.inr (Or.inl h2)

/-- Witness for C2 (amended): the check-level equivalence at a concrete row
whose first non-absent form has test space `V`, and the error-shape fact at
a concrete nest assembly that does raise the `ConfigurationError`. -/
theorem C2_absent_diagonal_bc_check_witness :
    (diagNoneCheck 0 [none, some formVW] [bcV] =
        some (.configurationError 0 0) ↔
      ∃ bc ∈ [bcV], formVW.testSpace.contains bc.functionSpace = true) ∧
    ((∃ i2, AsmError.configurationError 0 0 = .configurationError i2 i2) ∨
      AsmError.configurationError 0 0 = .assertionErr) :=
  ⟨C2_absent_diagonal_bc_check.1 0 [none, some formVW] [bcV] formVW [] rfl,
   (C2_absent_diagonal_bc_check.2.1 0
      [[none, some formVW], [some formTU, some formTW]] [bcV] 1).2
      (.configurationError 0 0) (by decide)⟩

end DolfinxPetsc
